import Mathlib

/-!
Verification of the GroupEng controller (src/controller.py) against its
natural-language specification.

The repository source available for inspection is `controller.py`; the
modules it imports (`group.py`, `rule.py`, `course.py`, `student.py`) are
not available, so the operations they provide (`make_initial_groups`,
`apply_rules_list`, the `Distribute` rule constructor) are modelled from
the specification, with each such definition marked in its doc comment.
File output and floating-point report formatting are out of scope; the
embedding records the structured content the controller computes.
-/

namespace GroupEng

/-- A student record: a mapping from attribute names to values.  The
controller accesses a student only through `s.data[attr]`. -/
structure Student where
  data : List (String × String)
deriving DecidableEq

/-- Attribute access `s.data[a]` (defaulting to the empty string when the
attribute is absent, which never happens on the controller's paths). -/
def Student.lookup (s : Student) (a : String) : String :=
  (s.data.lookup a).getD ""

/-- A group: a membership list of students plus a group number. -/
structure Group where
  students : List Student
  group_number : Nat
deriving DecidableEq

/-- The course: the live roster, the target group size and the uneven-size
policy token (`dek.get('uneven_size')` in the controller). -/
structure Course where
  students : List Student
  group_size : Int
  uneven_size : Option String
deriving DecidableEq

/-- The kinds of rules the controller distinguishes (it tests
`isinstance(x, Balance)` and constructs a `Distribute`). -/
inductive RuleKind
  | balance
  | distribute
  | other
deriving DecidableEq

/-- A rule: kind, target attribute, strength extraction and check
predicate, the capability interface of §4.3 of the specification. -/
structure Rule where
  kind : RuleKind
  attr : String  -- the source field `attribute` (a Lean keyword)
  get_strength : Student → Int
  check : Group → Bool

/-- A Python iterator over values of type `α`: the elements it has not yet
yielded.  Python 3's `filter` returns such an iterator, and iterating it
consumes it. -/
structure PyIter (α : Type) where
  remaining : List α
deriving DecidableEq

/-- Python 3 `filter(p, xs)`: a lazy iterator over the elements of `xs`
satisfying `p`. -/
def pyFilter {α : Type} (p : α → Bool) (xs : List α) : PyIter α :=
  ⟨xs.filter p⟩

/-- Iterating a Python iterator to exhaustion: yields its remaining
elements and leaves the iterator empty. -/
def PyIter.consumeAll {α : Type} (it : PyIter α) : List α × PyIter α :=
  (it.remaining, ⟨[]⟩)

/-- The errors the run can surface: the configuration error of §7 of the
specification, and the `UnevenGroups` exception of controller.py line 80. -/
inductive GroupEngError
  | configError
  | unevenGroups
deriving DecidableEq

/-- The phantom marker test: a student is a phantom when its identifier
attribute equals the marker value `'phantom'`. -/
def isPhantom (identifier : String) (s : Student) : Bool :=
  s.lookup identifier == "phantom"

/-- A phantom student record: carries only the identifier attribute, set to
the marker value. -/
def phantomStudent (identifier : String) : Student :=
  ⟨[(identifier, "phantom")]⟩

/-- Modelled from the spec: `rule.py` (not under src/) provides
`Distribute`.  §4.3: `check(Group)` returns true iff the group contains at
most one member whose attribute equals `target_value`.  The enforcement
step lives in the rule engine and is abstracted there. -/
def Distribute (attr : String) (_course : Course) (target : String) : Rule :=
  { kind := .distribute
    attr := attr
    get_strength := fun _ => 0
    check := fun g =>
      (g.students.filter (fun s => s.lookup attr == target)).length ≤ 1 }

/-- Number of groups: `ceil(roster size / group size)`.  §4.2 step 1 lets
the `uneven_size` policy pick ceil or floor; the floor variant is not
specified in enough detail to model (it would make the phantom count of
§4.2 step 2 negative), so the model uses the ceiling division that the
phantom-padding path of the specification requires. -/
def group_count (rosterSize gs : Nat) : Nat :=
  (rosterSize + gs - 1) / gs

/-- Round-robin dealing: `deal n r xs` deals `xs` into `n` groups over `r`
rounds, each round handing one student to each group in turn, so each group
receives a spread of the sorted list rather than a contiguous block. -/
def deal {α : Type} (n : Nat) : Nat → List α → List (List α)
  | 0, _ => List.replicate n []
  | r + 1, xs => List.zipWith List.cons (xs.take n) (deal n r (xs.drop n))

/-- Insertion into a list sorted by `le`. -/
def insertSorted {α : Type} (le : α → α → Bool) (x : α) : List α → List α
  | [] => [x]
  | y :: ys => if le x y then x :: y :: ys else y :: insertSorted le x ys

/-- Python's `list.sort` (ascending by the given comparison), modelled as
insertion sort; only the fact that it permutes its input matters here. -/
def pySort {α : Type} (le : α → α → Bool) (xs : List α) : List α :=
  xs.foldr (insertSorted le) []

/-- Seeding (§4.2 step 3): for each Balance rule, sort the students by that
rule's strength value before dealing. -/
def seedSort (brs : List Rule) (roster : List Student) : List Student :=
  brs.foldl
    (fun sts r =>
      pySort (fun a b => decide (r.get_strength a ≤ r.get_strength b)) sts)
    roster

/-- Modelled from the spec: `group.py` (not under src/) provides
`make_initial_groups`.  §4.2: validate the configuration (error if the
group size is non-positive or exceeds the roster size — §8's scenario),
compute the group count, inject `group_count * group_size - roster_size`
phantom records, seed by sorting on each Balance rule's strength and deal
round-robin, and number groups from 1.  The balance rules arrive as a
Python iterator, which this pass consumes; the consumed iterator is
returned alongside the groups and the updated course roster (phantoms are
added to the course's student list, §3 lifecycle). -/
def make_initial_groups (identifier : String) (course : Course)
    (balance_rules : PyIter Rule) :
    Except GroupEngError (List Group × List Student × PyIter Rule) :=
  let roster := course.students
  if course.group_size ≤ 0 then .error .configError
  else
    let gs := course.group_size.toNat
    if roster.length < gs then .error .configError
    else
      let consumed := balance_rules.consumeAll
      let n := group_count roster.length gs
      let nPhantoms := n * gs - roster.length
      let dealt := seedSort consumed.1 roster
        ++ List.replicate nPhantoms (phantomStudent identifier)
      let groups := (deal n gs dealt).enum.map (fun p => Group.mk p.2 (p.1 + 1))
      .ok (groups, roster ++ List.replicate nPhantoms (phantomStudent identifier),
           consumed.2)

/-- controller.py lines 76–77: `failures(r) = sum(1 - r.check(g) for g in
groups)`, with the boolean coerced to 1 or 0. -/
def failures (r : Rule) (groups : List Group) : Nat :=
  (groups.map (fun g => 1 - (if r.check g then 1 else 0))).sum

/-- Modelled from the spec: `rule.py` (not under src/) provides
`apply_rules_list`.  §4.4: enforce each rule in priority order over the
groups (the bounded heuristic enforcement pass is abstracted as the
parameter `enforce`), then report overall success true iff the
highest-priority rule, the head of the rule list, has zero failures. -/
def apply_rules_list (enforce : List Rule → List Group → List Student → List Group)
    (rules : List Rule) (groups : List Group) (students : List Student) :
    List Group × Bool :=
  let gs := enforce rules groups students
  match rules with
  | [] => (gs, true)
  | r0 :: _ => (gs, decide (failures r0 gs = 0))

/-- controller.py line 69: the rule list handed to the rule engine — the
phantom-distribution rule prepended ahead of the user rules. -/
def rulesHandedToEngine (identifier : String) (course : Course)
    (userRules : List Rule) : List Rule :=
  Distribute identifier course "phantom" :: userRules

/-- An item of a per-group summary line (controller.py lines 139–145):
either a Balance mean item (recording the rule's attribute and the members'
strengths whose mean is printed) or a failed-rule item. -/
inductive SummaryItem
  | meanItem (attr : String) (strengths : List Int)
  | failedItem (attr : String)
deriving DecidableEq

/-- Whether a summary item is a Balance mean item. -/
def SummaryItem.isMeanItem : SummaryItem → Bool
  | .meanItem _ _ => true
  | .failedItem _ => false

/-- One iteration of the summaries loop (controller.py lines 138–146): the
inner `for r in balance_rules` loop iterates the iterator to exhaustion,
then every rule failing on the group contributes a failed item. -/
def groupSummary (balanceIt : PyIter Rule) (rules : List Rule) (g : Group) :
    List SummaryItem × PyIter Rule :=
  let consumed := balanceIt.consumeAll
  (consumed.1.map (fun r => .meanItem r.attr (g.students.map r.get_strength))
     ++ (rules.filter (fun r => !(r.check g))).map (fun r => .failedItem r.attr),
   consumed.2)

/-- The Group Summaries section (controller.py lines 137–147): one item
list per group, threading the shared balance-rules iterator through the
loop. -/
def writeSummaries (balanceIt : PyIter Rule) (rules : List Rule) :
    List Group → List (List SummaryItem)
  | [] => []
  | g :: gs =>
    let step := groupSummary balanceIt rules g
    step.1 :: writeSummaries step.2 rules gs

/-- The structured outcome of a normal run: the final groups, the success
flag from the rule engine, the final course student list, and the per-group
summary items of the statistics report. -/
structure RunResult where
  groups : List Group
  suceeded : Bool
  students : List Student
  summaries : List (List SummaryItem)
deriving DecidableEq

/-- controller.py `run` (lines 56–87 plus the Group Summaries section,
lines 137–147): filter the balance rules (a lazy Python iterator), build
the initial groups, prepend the phantom-distribution rule, run the rule
engine, sort groups by number, raise `UnevenGroups` when the phantom rule
still fails, strip phantoms from groups and course, and emit the group
summaries.  `enforce` abstracts the rule engine's heuristic enforcement
pass (`rule.py` is not under src/); `userRules` are the rules already
resolved by the rule factory (`make_rule` is external, §6). -/
def run (enforce : List Rule → List Group → List Student → List Group)
    (identifier : String) (course : Course) (userRules : List Rule) :
    Except GroupEngError RunResult :=
  let balance_rules := pyFilter (fun r => r.kind == .balance) userRules
  match make_initial_groups identifier course balance_rules with
  | .error e => .error e
  | .ok (groups0, courseStudents, balanceIt) =>
    let rules := rulesHandedToEngine identifier course userRules
    let applied := apply_rules_list enforce rules groups0 courseStudents
    let groups1 := applied.1
    let suceeded := applied.2
    let groups2 := pySort (fun a b => decide (a.group_number ≤ b.group_number)) groups1
    if failures (Distribute identifier course "phantom") groups2 ≠ 0 then
      .error .unevenGroups
    else
      let groups3 := groups2.map (fun g =>
        { g with students := g.students.filter (fun s => s.lookup identifier != "phantom") })
      let finalStudents :=
        courseStudents.filter (fun s => s.lookup identifier != "phantom")
      .ok ⟨groups3, suceeded, finalStudents, writeSummaries balanceIt rules groups3⟩

/-- The phantom count injected for a course: `group_count * group_size -
roster_size` (§4.2 step 2). -/
def coursePhantomCount (c : Course) : Nat :=
  group_count c.students.length c.group_size.toNat * c.group_size.toNat
    - c.students.length

/-- The phantom-stripping map applied to the groups (controller.py
lines 83–85). -/
def stripPhantoms (identifier : String) (groups : List Group) : List Group :=
  groups.map (fun g =>
    { g with students := g.students.filter (fun s => s.lookup identifier != "phantom") })

/-! Concrete fixtures used to exercise the definitions at concrete inputs. -/

/-- A concrete student whose identifier attribute is the given value. -/
def mkStudent (v : String) : Student := ⟨[("id", v)]⟩

/-- The identity enforcement pass: leaves every group untouched (one
admissible instance of the abstracted rule-engine heuristic). -/
def idEnforce : List Rule → List Group → List Student → List Group :=
  fun _ gs _ => gs

/-- A four-student roster. -/
def roster4 : List Student :=
  [mkStudent "a", mkStudent "b", mkStudent "c", mkStudent "d"]

/-- A course of four students with group size 2 (evenly divisible). -/
def course4 : Course := ⟨roster4, 2, none⟩

/-- The initial groups built for `course4` (round-robin over two groups,
no phantoms needed). -/
def groups4 : List Group :=
  [⟨[mkStudent "a", mkStudent "c"], 1⟩, ⟨[mkStudent "b", mkStudent "d"], 2⟩]

/-- The outcome of a run on `course4` with no user rules and the identity
enforcement pass. -/
def result4 : RunResult :=
  ⟨groups4, true, roster4, [[], []]⟩

/-- A seven-student roster. -/
def roster7 : List Student :=
  [mkStudent "a", mkStudent "b", mkStudent "c", mkStudent "d",
   mkStudent "e", mkStudent "f", mkStudent "g"]

/-- A course of seven students with group size 5: two groups, three
phantoms, so one group necessarily starts with two phantoms. -/
def course7 : Course := ⟨roster7, 5, none⟩

/-- The initial groups built for `course7` (round-robin over two groups;
the three phantoms land one in group 1 and two in group 2). -/
def groups7 : List Group :=
  [⟨[mkStudent "a", mkStudent "c", mkStudent "e", mkStudent "g",
     phantomStudent "id"], 1⟩,
   ⟨[mkStudent "b", mkStudent "d", mkStudent "f",
     phantomStudent "id", phantomStudent "id"], 2⟩]

/-- The course student list for `course7` after phantom injection. -/
def students7 : List Student :=
  roster7 ++ [phantomStudent "id", phantomStudent "id", phantomStudent "id"]

/-- A user Balance rule on a numeric attribute whose check always passes
(its enforcement behaviour is irrelevant to the controller paths under
test). -/
def balanceRule : Rule :=
  ⟨.balance, "gpa", fun _ => 0, fun _ => true⟩

/-- A course whose requested group size exceeds the roster size. -/
def courseTooBig : Course := ⟨[mkStudent "a", mkStudent "b", mkStudent "c"], 10, none⟩

/-! Helper lemmas. -/

theorem insertSorted_perm {α : Type} (le : α → α → Bool) (x : α) :
    ∀ xs : List α, (insertSorted le x xs).Perm (x :: xs)
  | [] => List.Perm.refl _
  | y :: ys => by
    unfold insertSorted
    by_cases h : le x y = true
    · simp [h]
    · simp only [h, if_neg, Bool.not_eq_true]
      exact ((insertSorted_perm le x ys).cons y).trans (List.Perm.swap x y ys)

theorem pySort_perm {α : Type} (le : α → α → Bool) :
    ∀ xs : List α, (pySort le xs).Perm xs
  | [] => List.Perm.refl _
  | x :: xs =>
    ((insertSorted_perm le x (pySort le xs)).trans
      ((pySort_perm le xs).cons x))

theorem seedSort_perm (brs : List Rule) (roster : List Student) :
    (seedSort brs roster).Perm roster := by
  induction brs generalizing roster with
  | nil => exact List.Perm.refl _
  | cons r brs ih =>
    unfold seedSort
    simp only [List.foldl_cons]
    exact (ih _).trans (pySort_perm _ roster)

theorem failures_eq_countP (r : Rule) (groups : List Group) :
    failures r groups = groups.countP (fun g => !(r.check g)) := by
  induction groups with
  | nil => rfl
  | cons g gs ih =>
    simp only [failures, List.map_cons, List.sum_cons, List.countP_cons] at ih ⊢
    cases h : r.check g
    · simp [h, ih]
      omega
    · simp [h, ih]

theorem failures_perm (r : Rule) {g1 g2 : List Group} (h : g1.Perm g2) :
    failures r g1 = failures r g2 := by
  rw [failures_eq_countP, failures_eq_countP]
  exact h.countP_eq _

theorem deal_length {α : Type} (n : Nat) :
    ∀ (r : Nat) (xs : List α), n * r ≤ xs.length → (deal n r xs).length = n
  | 0, xs, _ => by simp [deal]
  | r + 1, xs, h => by
    have hmul : n * (r + 1) = n * r + n := by ring
    have hdrop : n * r ≤ (xs.drop n).length := by
      simp only [List.length_drop]; omega
    simp only [deal, List.length_zipWith, List.length_take,
      deal_length n r (xs.drop n) hdrop]
    omega

theorem mem_zipWith_cons {α : Type} :
    ∀ {as : List α} {bs : List (List α)} {x : List α},
      x ∈ List.zipWith List.cons as bs → ∃ a b, a ∈ as ∧ b ∈ bs ∧ x = a :: b
  | [], _, x, h => by simp at h
  | _ :: _, [], x, h => by simp at h
  | a :: as, b :: bs, x, h => by
    simp only [List.zipWith_cons_cons, List.mem_cons] at h
    rcases h with h | h
    · exact ⟨a, b, List.mem_cons_self .., List.mem_cons_self .., h⟩
    · obtain ⟨a', b', ha, hb, hx⟩ := mem_zipWith_cons h
      exact ⟨a', b', List.mem_cons_of_mem _ ha, List.mem_cons_of_mem _ hb, hx⟩

theorem deal_mem_length {α : Type} (n : Nat) :
    ∀ (r : Nat) (xs : List α), xs.length = n * r →
      ∀ l ∈ deal n r xs, l.length = r
  | 0, xs, _, l, hl => by
    simp only [deal] at hl
    simp [List.eq_of_mem_replicate hl]
  | r + 1, xs, h, l, hl => by
    simp only [deal] at hl
    obtain ⟨a, b, _, hb, hx⟩ := mem_zipWith_cons hl
    have hmul : n * (r + 1) = n * r + n := by ring
    have hdrop : (xs.drop n).length = n * r := by
      simp only [List.length_drop]; omega
    have := deal_mem_length n r (xs.drop n) hdrop b hb
    simp [hx, this]

theorem flatten_zipWith_cons_perm {α : Type} :
    ∀ (as : List α) (bs : List (List α)), as.length = bs.length →
      (List.zipWith List.cons as bs).flatten.Perm (as ++ bs.flatten)
  | [], [], _ => by simp
  | [], _ :: _, h => by simp at h
  | _ :: _, [], h => by simp at h
  | a :: as, b :: bs, h => by
    simp only [List.length_cons, Nat.add_right_cancel_iff] at h
    simp only [List.zipWith_cons_cons, List.flatten_cons, List.cons_append]
    refine List.Perm.cons a ?_
    refine (List.Perm.append_left b (flatten_zipWith_cons_perm as bs h)).trans ?_
    rw [← List.append_assoc, ← List.append_assoc]
    exact List.Perm.append_right _ List.perm_append_comm

theorem deal_flatten_perm {α : Type} (n : Nat) :
    ∀ (r : Nat) (xs : List α), xs.length = n * r →
      (deal n r xs).flatten.Perm xs
  | 0, xs, h => by
    have hx : xs = [] := by
      cases xs with
      | nil => rfl
      | cons y ys => simp at h
    subst hx
    clear h
    simp only [deal]
    induction n with
    | zero => simp
    | succ k ih =>
      rw [List.replicate_succ, List.flatten_cons, List.nil_append]
      exact ih
  | r + 1, xs, h => by
    have hmul : n * (r + 1) = n * r + n := by ring
    have hn : n ≤ xs.length := by omega
    have htake : (xs.take n).length = n := by
      simp [List.length_take]; omega
    have hdrop : (xs.drop n).length = n * r := by
      simp only [List.length_drop]; omega
    have hlen : (xs.take n).length = (deal n r (xs.drop n)).length := by
      rw [htake, deal_length n r (xs.drop n) (le_of_eq hdrop.symm)]
    simp only [deal]
    refine (flatten_zipWith_cons_perm _ _ hlen).trans ?_
    refine (List.Perm.append_left _ (deal_flatten_perm n r (xs.drop n) hdrop)).trans ?_
    rw [List.take_append_drop]

theorem le_group_count_mul (L gs : Nat) (h : 0 < gs) :
    L ≤ group_count L gs * gs := by
  rcases Nat.eq_zero_or_pos L with h0 | h0
  · subst h0; exact Nat.zero_le _
  unfold group_count
  have he : L + gs - 1 = (L - 1) + gs := by omega
  rw [he, Nat.add_div_right _ h, Nat.add_mul, Nat.one_mul, Nat.mul_comm]
  have hdm := Nat.div_add_mod (L - 1) gs
  have hlt : (L - 1) % gs < gs := Nat.mod_lt _ h
  obtain ⟨k, hk⟩ : ∃ k, gs * ((L - 1) / gs) = k := ⟨_, rfl⟩
  rw [hk] at hdm ⊢
  omega

theorem group_count_mul_of_dvd (L gs : Nat) (h : 0 < gs) (hd : L % gs = 0) :
    group_count L gs * gs = L := by
  obtain ⟨q, hq⟩ := Nat.dvd_of_mod_eq_zero hd
  subst hq
  unfold group_count
  rcases Nat.eq_zero_or_pos q with hq0 | hq0
  · subst hq0
    simp only [Nat.mul_zero, Nat.zero_add]
    rw [Nat.div_eq_of_lt (by omega)]
    simp
  · have h1 : gs * q + gs - 1 = gs * q + (gs - 1) := by omega
    rw [h1, Nat.mul_add_div h, Nat.div_eq_of_lt (by omega), Nat.add_zero,
      Nat.mul_comm]

theorem make_initial_groups_ok_eq (identifier : String) (c : Course)
    (br : PyIter Rule)
    (h1 : ¬ c.group_size ≤ 0) (h2 : ¬ c.students.length < c.group_size.toNat) :
    make_initial_groups identifier c br =
      .ok ((deal (group_count c.students.length c.group_size.toNat)
              c.group_size.toNat
              (seedSort br.remaining c.students
                ++ List.replicate (coursePhantomCount c) (phantomStudent identifier))).enum.map
             (fun p => Group.mk p.2 (p.1 + 1)),
           c.students ++ List.replicate (coursePhantomCount c) (phantomStudent identifier),
           ⟨[]⟩) := by
  simp [make_initial_groups, h1, h2, PyIter.consumeAll, coursePhantomCount]

theorem make_initial_groups_ok_inv (identifier : String) (c : Course)
    (br : PyIter Rule) (g : List Group) (sts : List Student) (it : PyIter Rule)
    (h : make_initial_groups identifier c br = .ok (g, sts, it)) :
    ¬ c.group_size ≤ 0 ∧ ¬ c.students.length < c.group_size.toNat := by
  by_cases h1 : c.group_size ≤ 0
  · simp [make_initial_groups, h1] at h
  by_cases h2 : c.students.length < c.group_size.toNat
  · simp [make_initial_groups, h1, h2] at h
  exact ⟨h1, h2⟩

theorem make_initial_groups_students_eq (identifier : String) (c : Course)
    (br : PyIter Rule) (g : List Group) (sts : List Student) (it : PyIter Rule)
    (h : make_initial_groups identifier c br = .ok (g, sts, it)) :
    g.map Group.students =
      deal (group_count c.students.length c.group_size.toNat)
        c.group_size.toNat
        (seedSort br.remaining c.students
          ++ List.replicate (coursePhantomCount c) (phantomStudent identifier))
    ∧ sts = c.students
        ++ List.replicate (coursePhantomCount c) (phantomStudent identifier)
    ∧ it = ⟨[]⟩ := by
  obtain ⟨h1, h2⟩ := make_initial_groups_ok_inv identifier c br g sts it h
  rw [make_initial_groups_ok_eq identifier c br h1 h2] at h
  obtain ⟨hg, hsts, hit⟩ := by
    simpa using h
  refine ⟨?_, hsts.symm, hit.symm⟩
  rw [← hg]
  rw [List.map_map]
  have : (Group.students ∘ fun p : Nat × List Student => Group.mk p.2 (p.1 + 1))
      = Prod.snd := rfl
  rw [this, List.enum_map_snd]

theorem dealt_length (identifier : String) (c : Course) (brs : List Rule)
    (h1 : ¬ c.group_size ≤ 0) :
    (seedSort brs c.students
      ++ List.replicate (coursePhantomCount c) (phantomStudent identifier)).length
    = group_count c.students.length c.group_size.toNat * c.group_size.toNat := by
  have hpos : 0 < c.group_size.toNat := by omega
  have hle := le_group_count_mul c.students.length c.group_size.toNat hpos
  simp only [List.length_append, List.length_replicate,
    (seedSort_perm brs c.students).length_eq, coursePhantomCount]
  omega

theorem run_eq_of_mk_ok
    (E : List Rule → List Group → List Student → List Group)
    (identifier : String) (c : Course) (ur : List Rule)
    (g0 : List Group) (sts : List Student) (it : PyIter Rule)
    (hmk : make_initial_groups identifier c
      (pyFilter (fun r => r.kind == .balance) ur) = .ok (g0, sts, it)) :
    run E identifier c ur =
      (if failures (Distribute identifier c "phantom")
            (pySort (fun a b => decide (a.group_number ≤ b.group_number))
              (E (rulesHandedToEngine identifier c ur) g0 sts)) ≠ 0 then
        .error .unevenGroups
      else
        .ok ⟨stripPhantoms identifier
               (pySort (fun a b => decide (a.group_number ≤ b.group_number))
                 (E (rulesHandedToEngine identifier c ur) g0 sts)),
             decide (failures (Distribute identifier c "phantom")
               (E (rulesHandedToEngine identifier c ur) g0 sts) = 0),
             sts.filter (fun s => s.lookup identifier != "phantom"),
             writeSummaries it (rulesHandedToEngine identifier c ur)
               (stripPhantoms identifier
                 (pySort (fun a b => decide (a.group_number ≤ b.group_number))
                   (E (rulesHandedToEngine identifier c ur) g0 sts)))⟩) := by
  simp only [run, hmk, apply_rules_list, rulesHandedToEngine, stripPhantoms]

theorem run_ok_inv
    (E : List Rule → List Group → List Student → List Group)
    (identifier : String) (c : Course) (ur : List Rule) (res : RunResult)
    (h : run E identifier c ur = .ok res) :
    ∃ g0 sts it,
      make_initial_groups identifier c
        (pyFilter (fun r => r.kind == .balance) ur) = .ok (g0, sts, it)
      ∧ failures (Distribute identifier c "phantom")
          (pySort (fun a b => decide (a.group_number ≤ b.group_number))
            (E (rulesHandedToEngine identifier c ur) g0 sts)) = 0
      ∧ res = ⟨stripPhantoms identifier
                 (pySort (fun a b => decide (a.group_number ≤ b.group_number))
                   (E (rulesHandedToEngine identifier c ur) g0 sts)),
               decide (failures (Distribute identifier c "phantom")
                 (E (rulesHandedToEngine identifier c ur) g0 sts) = 0),
               sts.filter (fun s => s.lookup identifier != "phantom"),
               writeSummaries it (rulesHandedToEngine identifier c ur)
                 (stripPhantoms identifier
                   (pySort (fun a b => decide (a.group_number ≤ b.group_number))
                     (E (rulesHandedToEngine identifier c ur) g0 sts)))⟩ := by
  cases hmk : make_initial_groups identifier c
      (pyFilter (fun r => r.kind == .balance) ur) with
  | error e =>
    rw [run, hmk] at h
    cases h
  | ok triple =>
    obtain ⟨g0, sts, it⟩ := triple
    rw [run_eq_of_mk_ok E identifier c ur g0 sts it hmk] at h
    by_cases hz : failures (Distribute identifier c "phantom")
        (pySort (fun a b => decide (a.group_number ≤ b.group_number))
          (E (rulesHandedToEngine identifier c ur) g0 sts)) = 0
    · refine ⟨g0, sts, it, rfl, hz, ?_⟩
      rw [if_neg (by simpa using hz)] at h
      exact Except.ok.inj h.symm
    · rw [if_pos hz] at h
      cases h

theorem mem_strip_not_phantom (identifier : String) (groups : List Group)
    (g : Group) (hg : g ∈ stripPhantoms identifier groups)
    (s : Student) (hs : s ∈ g.students) :
    s.lookup identifier ≠ "phantom" := by
  simp only [stripPhantoms, List.mem_map] at hg
  obtain ⟨g', _, rfl⟩ := hg
  simp only [List.mem_filter] at hs
  simpa using hs.2

theorem failures_strip_zero (identifier : String) (c : Course)
    (groups : List Group) :
    failures (Distribute identifier c "phantom")
      (stripPhantoms identifier groups) = 0 := by
  rw [failures_eq_countP, List.countP_eq_zero]
  intro g hg
  simp only [Bool.not_eq_true', Bool.not_eq_false]
  simp only [Distribute]
  have : (g.students.filter (fun s => s.lookup identifier == "phantom")) = [] := by
    rw [List.filter_eq_nil_iff]
    intro s hs
    have := mem_strip_not_phantom identifier groups g hg s hs
    simpa using this
  simp [this]

theorem countP_contains_of_count_flatten_one {α : Type} [DecidableEq α] (s : α) :
    ∀ L : List (List α), L.flatten.count s = 1 →
      L.countP (fun l => decide (s ∈ l)) = 1
  | [], h => by simp at h
  | l :: L, h => by
    rw [List.flatten_cons, List.count_append] at h
    rw [List.countP_cons]
    by_cases hm : s ∈ l
    · have h1 : 1 ≤ List.count s l := List.one_le_count_iff.mpr hm
      have h0 : List.count s L.flatten = 0 := by omega
      have hL : L.countP (fun l => decide (s ∈ l)) = 0 := by
        rw [List.countP_eq_zero]
        intro l' hl'
        simp only [decide_eq_true_eq]
        intro hmem
        exact (List.count_eq_zero.mp h0) (List.mem_flatten.mpr ⟨l', hl', hmem⟩)
      simp [hL, hm]
    · have h1 : List.count s l = 0 := List.count_eq_zero.mpr hm
      rw [h1, Nat.zero_add] at h
      simp [hm, countP_contains_of_count_flatten_one s L h]

/-! The claims. -/

/-- C1: for every run completing the enforcement pass, overall success is
true iff the highest-priority (phantom-distribution) rule has zero failing
groups; its violation surfaces as the distinct `unevenGroups` error, and a
normal return implies the phantom rule's failure count is 0. -/
theorem run_success_iff_phantom_rule_zero
    (E : List Rule → List Group → List Student → List Group)
    (identifier : String) (c : Course) (ur : List Rule)
    (g0 : List Group) (sts : List Student) (it : PyIter Rule)
    (hmk : make_initial_groups identifier c
      (pyFilter (fun r => r.kind == .balance) ur) = .ok (g0, sts, it)) :
    (failures (Distribute identifier c "phantom")
        (E (rulesHandedToEngine identifier c ur) g0 sts) = 0 →
      ∃ res, run E identifier c ur = .ok res ∧ res.suceeded = true
        ∧ failures (Distribute identifier c "phantom") res.groups = 0)
    ∧ (failures (Distribute identifier c "phantom")
        (E (rulesHandedToEngine identifier c ur) g0 sts) ≠ 0 →
      run E identifier c ur = .error .unevenGroups) := by
  have hfp := failures_perm (Distribute identifier c "phantom")
    (pySort_perm (fun a b => decide (a.group_number ≤ b.group_number))
      (E (rulesHandedToEngine identifier c ur) g0 sts))
  rw [run_eq_of_mk_ok E identifier c ur g0 sts it hmk]
  constructor
  · intro h0
    rw [if_neg (by rw [hfp, h0]; simp)]
    exact ⟨_, rfl, by simp [h0], failures_strip_zero identifier c _⟩
  · intro hne
    rw [if_pos (by rw [hfp]; exact hne)]

theorem run_success_iff_phantom_rule_zero_witness :
    (failures (Distribute "id" course4 "phantom")
        (idEnforce (rulesHandedToEngine "id" course4 []) groups4 roster4) = 0 →
      ∃ res, run idEnforce "id" course4 [] = .ok res ∧ res.suceeded = true
        ∧ failures (Distribute "id" course4 "phantom") res.groups = 0)
    ∧ (failures (Distribute "id" course4 "phantom")
        (idEnforce (rulesHandedToEngine "id" course4 []) groups4 roster4) ≠ 0 →
      run idEnforce "id" course4 [] = .error .unevenGroups) :=
  run_success_iff_phantom_rule_zero idEnforce "id" course4 []
    groups4 roster4 ⟨[]⟩ rfl

/-- C2 counterexample: on a seven-student roster with group size 5 and an
enforcement pass that leaves the groups as dealt, the ungroupable condition
holds (the phantom-distribution rule has a failing group after the
enforcement pass), yet `run` raises the `unevenGroups` error rather than
returning the partition as a structured result. -/
theorem run_ungroupable_returns_no_partition :
    failures (Distribute "id" course7 "phantom")
      (idEnforce (rulesHandedToEngine "id" course7 []) groups7 students7) ≠ 0
    ∧ run idEnforce "id" course7 [] = .error .unevenGroups := by
  exact ⟨by decide, rfl⟩

/-- C2 (amended): when the ungroupable condition holds after the full
enforcement pass, the run raises the distinct `unevenGroups` error — the
condition is detected only after the enforcement pass, but the partition is
not returned to the caller. -/
theorem run_ungroupable_raises_uneven
    (E : List Rule → List Group → List Student → List Group)
    (identifier : String) (c : Course) (ur : List Rule)
    (g0 : List Group) (sts : List Student) (it : PyIter Rule)
    (hmk : make_initial_groups identifier c
      (pyFilter (fun r => r.kind == .balance) ur) = .ok (g0, sts, it))
    (hfail : failures (Distribute identifier c "phantom")
      (E (rulesHandedToEngine identifier c ur) g0 sts) ≠ 0) :
    run E identifier c ur = .error .unevenGroups := by
  have hfp := failures_perm (Distribute identifier c "phantom")
    (pySort_perm (fun a b => decide (a.group_number ≤ b.group_number))
      (E (rulesHandedToEngine identifier c ur) g0 sts))
  rw [run_eq_of_mk_ok E identifier c ur g0 sts it hmk]
  rw [if_pos (by rw [hfp]; exact hfail)]

theorem run_ungroupable_raises_uneven_witness :
    run idEnforce "id" course7 [] = .error .unevenGroups :=
  run_ungroupable_raises_uneven idEnforce "id" course7 []
    groups7 students7 ⟨[]⟩ rfl (by decide)

/-- C3: whenever `run` returns normally, every phantom record has been
removed both from every returned group's membership list and from the final
course student list. -/
theorem run_strips_phantoms
    (E : List Rule → List Group → List Student → List Group)
    (identifier : String) (c : Course) (ur : List Rule) (res : RunResult)
    (h : run E identifier c ur = .ok res) :
    (∀ g ∈ res.groups, ∀ s ∈ g.students, s.lookup identifier ≠ "phantom")
    ∧ ∀ s ∈ res.students, s.lookup identifier ≠ "phantom" := by
  obtain ⟨g0, sts, it, hmk, hz, hres⟩ := run_ok_inv E identifier c ur res h
  subst hres
  constructor
  · intro g hg s hs
    exact mem_strip_not_phantom identifier _ g hg s hs
  · intro s hs
    simp only [List.mem_filter] at hs
    simpa using hs.2

theorem run_strips_phantoms_witness :
    (mkStudent "a").lookup "id" ≠ "phantom" :=
  (run_strips_phantoms idEnforce "id" course4 [] result4 rfl).1
    ⟨[mkStudent "a", mkStudent "c"], 1⟩ (by simp [result4, groups4])
    (mkStudent "a") (by simp)

/-- C4: the rule list handed to the rule engine is the injected
phantom-distribution `Distribute` rule over the identifier attribute at
position 0, followed by the user rules in their original order. -/
theorem rules_handed_phantom_first (identifier : String) (c : Course)
    (ur : List Rule) :
    (rulesHandedToEngine identifier c ur).length = ur.length + 1
    ∧ (rulesHandedToEngine identifier c ur).head?
        = some (Distribute identifier c "phantom")
    ∧ ∀ i : Nat, (rulesHandedToEngine identifier c ur)[i + 1]? = ur[i]? := by
  refine ⟨by simp [rulesHandedToEngine], by simp [rulesHandedToEngine],
    fun i => ?_⟩
  simp [rulesHandedToEngine]

/-- C5: for every rule and group list, `failures` equals the number of
groups whose check fails. -/
theorem failures_counts_failing_groups (r : Rule) (groups : List Group) :
    failures r groups = (groups.filter (fun g => !(r.check g))).length := by
  rw [failures_eq_countP, List.countP_eq_length_filter]

/-- C6: a non-positive group size, or a group size exceeding the roster,
aborts with the configuration error before any group is created — the
partitioner returns the error and the run surfaces it with no partition. -/
theorem config_error_aborts
    (E : List Rule → List Group → List Student → List Group)
    (identifier : String) (c : Course) (ur : List Rule)
    (h : c.group_size ≤ 0 ∨ (c.students.length : Int) < c.group_size) :
    make_initial_groups identifier c
      (pyFilter (fun r => r.kind == .balance) ur) = .error .configError
    ∧ run E identifier c ur = .error .configError := by
  have hmk : make_initial_groups identifier c
      (pyFilter (fun r => r.kind == .balance) ur) = .error .configError := by
    rcases h with h1 | h2
    · simp [make_initial_groups, h1]
    · by_cases h1 : c.group_size ≤ 0
      · simp [make_initial_groups, h1]
      · have hlt : c.students.length < c.group_size.toNat := by omega
        simp [make_initial_groups, h1, hlt]
  exact ⟨hmk, by simp [run, hmk]⟩

theorem config_error_aborts_witness :
    make_initial_groups "id" courseTooBig
      (pyFilter (fun r => r.kind == .balance) []) = .error .configError
    ∧ run idEnforce "id" courseTooBig [] = .error .configError :=
  config_error_aborts idEnforce "id" courseTooBig [] (Or.inr (by decide))

/-- C7: the partitioner creates exactly `group_count * group_size -
roster_size` phantom records (zero when the roster divides evenly), and
every initial group has exactly `group_size` members, phantoms included. -/
theorem initial_phantom_count_and_sizes
    (identifier : String) (c : Course) (br : PyIter Rule)
    (groups : List Group) (sts : List Student) (it : PyIter Rule)
    (hnoph : ∀ s ∈ c.students, s.lookup identifier ≠ "phantom")
    (hmk : make_initial_groups identifier c br = .ok (groups, sts, it)) :
    (sts.filter (isPhantom identifier)).length = coursePhantomCount c
    ∧ (c.students.length % c.group_size.toNat = 0 →
        (sts.filter (isPhantom identifier)).length = 0)
    ∧ ∀ g ∈ groups, g.students.length = c.group_size.toNat := by
  obtain ⟨h1, h2⟩ := make_initial_groups_ok_inv identifier c br groups sts it hmk
  obtain ⟨hg, hsts, hit⟩ :=
    make_initial_groups_students_eq identifier c br groups sts it hmk
  have hpos : 0 < c.group_size.toNat := by omega
  have hfilter : sts.filter (isPhantom identifier)
      = List.replicate (coursePhantomCount c) (phantomStudent identifier) := by
    rw [hsts, List.filter_append]
    have hr : c.students.filter (isPhantom identifier) = [] := by
      rw [List.filter_eq_nil_iff]
      intro s hs
      simpa [isPhantom] using hnoph s hs
    have hp : (List.replicate (coursePhantomCount c)
          (phantomStudent identifier)).filter (isPhantom identifier)
        = List.replicate (coursePhantomCount c) (phantomStudent identifier) := by
      rw [List.filter_eq_self]
      intro s hs
      rw [List.eq_of_mem_replicate hs]
      simp [isPhantom, phantomStudent, Student.lookup]
    rw [hr, hp, List.nil_append]
  refine ⟨by rw [hfilter, List.length_replicate], ?_, ?_⟩
  · intro hdvd
    rw [hfilter, List.length_replicate]
    unfold coursePhantomCount
    rw [group_count_mul_of_dvd _ _ hpos hdvd]
    omega
  · intro g hgmem
    have hmem : g.students ∈ groups.map Group.students :=
      List.mem_map_of_mem _ hgmem
    rw [hg] at hmem
    exact deal_mem_length _ _ _
      (dealt_length identifier c br.remaining h1) _ hmem

theorem initial_phantom_count_and_sizes_witness :
    (students7.filter (isPhantom "id")).length = coursePhantomCount course7
    ∧ (course7.students.length % course7.group_size.toNat = 0 →
        (students7.filter (isPhantom "id")).length = 0)
    ∧ ∀ g ∈ groups7, g.students.length = course7.group_size.toNat :=
  initial_phantom_count_and_sizes "id" course7 ⟨[]⟩ groups7 students7 ⟨[]⟩
    (by decide) rfl

/-- C9: a rule's check is deterministic and side-effect-free — repeated
evaluations on the same group all yield the same boolean — and the failure
count used by the `UnevenGroups` test agrees with the per-group checks the
reporting loop re-runs: it is zero exactly when every group passes. -/
theorem check_pure_and_failure_counts_agree (r : Rule) (g : Group) (n : Nat)
    (groups : List Group) :
    (List.range n).map (fun _ => r.check g) = List.replicate n (r.check g)
    ∧ (failures r groups = 0 ↔ ∀ g' ∈ groups, r.check g' = true) := by
  constructor
  · rw [List.map_const', List.length_range]
  · rw [failures_eq_countP, List.countP_eq_zero]
    simp

/-- C8: provided the enforcement pass only moves students between groups
(preserving the flattened membership up to permutation, §4.1) and the
roster is phantom-free with no duplicate records, a normal run returns
groups whose stripped membership is exactly the original roster: the
total membership equals the roster size and every student lies in exactly
one returned group. -/
theorem run_partition_preserves_roster
    (E : List Rule → List Group → List Student → List Group)
    (identifier : String) (c : Course) (ur : List Rule) (res : RunResult)
    (hE : ∀ rs gs sts, (((E rs gs sts).map Group.students).flatten).Perm
      ((gs.map Group.students).flatten))
    (hnoph : ∀ s ∈ c.students, s.lookup identifier ≠ "phantom")
    (hnd : c.students.Nodup)
    (h : run E identifier c ur = .ok res) :
    ((res.groups.map Group.students).flatten).Perm c.students
    ∧ (res.groups.map (fun g => g.students.length)).sum = c.students.length
    ∧ ∀ s ∈ c.students,
        res.groups.countP (fun g => decide (s ∈ g.students)) = 1 := by
  obtain ⟨g0, sts, it, hmk, hz, hres⟩ := run_ok_inv E identifier c ur res h
  obtain ⟨h1, h2⟩ := make_initial_groups_ok_inv _ _ _ _ _ _ hmk
  obtain ⟨hg0, hsts, hit⟩ := make_initial_groups_students_eq _ _ _ _ _ _ hmk
  have hresg : res.groups = stripPhantoms identifier
      (pySort (fun a b => decide (a.group_number ≤ b.group_number))
        (E (rulesHandedToEngine identifier c ur) g0 sts)) := by rw [hres]
  have hA : (res.groups.map Group.students).flatten
      = (((pySort (fun a b => decide (a.group_number ≤ b.group_number))
            (E (rulesHandedToEngine identifier c ur) g0 sts)).map
          Group.students).flatten).filter
          (fun s => s.lookup identifier != "phantom") := by
    rw [hresg, stripPhantoms, List.map_map, List.filter_flatten, List.map_map]
    rfl
  have hdl := dealt_length identifier c
    (pyFilter (fun r => r.kind == RuleKind.balance) ur).remaining h1
  have hB : ((((pySort (fun a b => decide (a.group_number ≤ b.group_number))
        (E (rulesHandedToEngine identifier c ur) g0 sts)).map
      Group.students).flatten)).Perm
      (c.students ++ List.replicate (coursePhantomCount c)
        (phantomStudent identifier)) := by
    refine (((pySort_perm _ _).map Group.students).flatten).trans ?_
    refine (hE (rulesHandedToEngine identifier c ur) g0 sts).trans ?_
    rw [hg0]
    refine (deal_flatten_perm _ _ _ hdl).trans ?_
    exact (seedSort_perm _ c.students).append_right _
  have hD : (c.students ++ List.replicate (coursePhantomCount c)
        (phantomStudent identifier)).filter
        (fun s => s.lookup identifier != "phantom") = c.students := by
    rw [List.filter_append]
    have hr : c.students.filter (fun s => s.lookup identifier != "phantom")
        = c.students := by
      rw [List.filter_eq_self]
      intro s hs
      simpa using hnoph s hs
    have hp : (List.replicate (coursePhantomCount c)
          (phantomStudent identifier)).filter
          (fun s => s.lookup identifier != "phantom") = [] := by
      rw [List.filter_eq_nil_iff]
      intro s hs
      rw [List.eq_of_mem_replicate hs]
      simp [phantomStudent, Student.lookup]
    rw [hr, hp, List.append_nil]
  have hperm : ((res.groups.map Group.students).flatten).Perm c.students := by
    rw [hA, ← hD]
    exact hB.filter _
  refine ⟨hperm, ?_, ?_⟩
  · have : (res.groups.map (fun g => g.students.length))
        = ((res.groups.map Group.students).map List.length) := by
      rw [List.map_map]; rfl
    rw [this, ← List.length_flatten, hperm.length_eq]
  · intro s hs
    have hcount : ((res.groups.map Group.students).flatten).count s = 1 := by
      rw [hperm.count_eq]
      exact List.count_eq_one_of_mem hnd hs
    have := countP_contains_of_count_flatten_one s _ hcount
    rw [List.countP_map] at this
    exact this

theorem run_partition_preserves_roster_witness :
    ((result4.groups.map Group.students).flatten).Perm course4.students
    ∧ (result4.groups.map (fun g => g.students.length)).sum
        = course4.students.length
    ∧ ∀ s ∈ course4.students,
        result4.groups.countP (fun g => decide (s ∈ g.students)) = 1 :=
  run_partition_preserves_roster idEnforce "id" course4 [] result4
    (fun _ _ _ => List.Perm.refl _) (by decide) (by decide) rfl

theorem writeSummaries_exhausted (rules : List Rule) :
    ∀ gs : List Group,
      writeSummaries ⟨[]⟩ rules gs
        = gs.map (fun g => (rules.filter (fun r => !(r.check g))).map
            (fun r => SummaryItem.failedItem r.attr))
  | [] => rfl
  | g :: gs => by
    simp only [writeSummaries, groupSummary, PyIter.consumeAll, List.map_cons,
      List.map_nil, List.nil_append]
    rw [writeSummaries_exhausted rules gs]

/-- C10: the balance-rules filter iterator is exhausted by the initial
partitioner, so the per-group summaries of the statistics report are built
from an empty iterator: they consist only of failed-rule items and never
contain a Balance mean item, however many Balance rules the input has. -/
theorem summaries_never_contain_balance_means
    (E : List Rule → List Group → List Student → List Group)
    (identifier : String) (c : Course) (ur : List Rule) (res : RunResult)
    (h : run E identifier c ur = .ok res) :
    res.summaries = res.groups.map (fun g =>
      ((rulesHandedToEngine identifier c ur).filter
        (fun r => !(r.check g))).map (fun r => SummaryItem.failedItem r.attr))
    ∧ ∀ items ∈ res.summaries, ∀ item ∈ items, item.isMeanItem = false := by
  obtain ⟨g0, sts, it, hmk, hz, hres⟩ := run_ok_inv E identifier c ur res h
  obtain ⟨hg0, hsts, hit⟩ := make_initial_groups_students_eq _ _ _ _ _ _ hmk
  subst hit
  have hsum : res.summaries = res.groups.map (fun g =>
      ((rulesHandedToEngine identifier c ur).filter
        (fun r => !(r.check g))).map (fun r => SummaryItem.failedItem r.attr)) := by
    rw [hres]
    exact writeSummaries_exhausted _ _
  refine ⟨hsum, ?_⟩
  intro items hitems item hitem
  rw [hsum] at hitems
  obtain ⟨g, _, rfl⟩ := List.mem_map.mp hitems
  obtain ⟨r, _, rfl⟩ := List.mem_map.mp hitem
  rfl

theorem summaries_never_contain_balance_means_witness :
    result4.summaries = result4.groups.map (fun g =>
      ((rulesHandedToEngine "id" course4 [balanceRule]).filter
        (fun r => !(r.check g))).map (fun r => SummaryItem.failedItem r.attr))
    ∧ ∀ items ∈ result4.summaries, ∀ item ∈ items, item.isMeanItem = false :=
  summaries_never_contain_balance_means idEnforce "id" course4 [balanceRule]
    result4 rfl

end GroupEng
